import Mathlib

/-!
Verification of the test-stub generator (`testgen.py`).

The development shallowly embeds the Python source: Python objects that the
reflection pipeline inspects (functions, methods, classes, modules) become the
inductive type `PyObj`; a namespace's attributes are `(key, value)` pairs,
because `inspect.getmembers` sorts and the `ignore` filter selects by the
attribute key while the emitted import list and `exists_test` use the value's
`__name__` — an alias binding (`bar = foo`) makes the two differ.  Generated
file text is modelled as a list of lines (each Python string chunk produced
by the source ends in a newline, so the line-list representation is exact);
the filesystem is a map from paths to optional line lists plus a set of
directories.  `importlib.import_module` is a parameter `load` returning
`Option PyObj` (`none` models a raised `ModuleNotFoundError`, which aborts
the generation loop); `py_import_model` records the one constraint every
interpreter obeys: a dotted name with an empty component never imports.
Recursion of `format_class` into nested classes is unbounded in Python; here
it is indexed by a fuel argument, instantiated with the structural size
`PyObj.size` of the class by the wrapper `format_class`, which is enough fuel
because the recursion only descends into structurally smaller members
(`format_class_fuel_congr` below proves the result does not depend on the
fuel once it is at least the size).
-/

namespace Testgen

/-- Model of the Python objects inspected by the generator: plain functions,
bound methods, classes (with the attributes reachable via
`inspect.getmembers`), modules (with their attributes), and any other kind
of object.  A namespace's attributes are `(key, value)` pairs: the key is
the attribute name the namespace binds, the value the object bound there.
For a `def`/`class` statement the key equals the value's `__name__`, but an
alias binding (`bar = foo`) gives the same value a second key.  `module` is
the object's `__module__` attribute; a module's `name` is its fully
qualified `__name__`. -/
inductive PyObj where
  | pyfunc (name : String) (module : String)
  | pymethod (name : String) (module : String)
  | pyclass (name : String) (module : String) (members : List (String × PyObj))
  | pymodule (name : String) (members : List (String × PyObj))
  | pyother (name : String) (module : String)

/-- The object's `__name__` attribute. -/
def PyObj.name : PyObj → String
  | .pyfunc n _ => n
  | .pymethod n _ => n
  | .pyclass n _ _ => n
  | .pymodule n _ => n
  | .pyother n _ => n

/-- The object's `__module__` attribute (`none` models the `AttributeError`
of a module object, which has no `__module__`; the source only reads
`__module__` behind guards that exclude that case). -/
def PyObj.module? : PyObj → Option String
  | .pyfunc _ m => some m
  | .pymethod _ m => some m
  | .pyclass _ m _ => some m
  | .pymodule _ _ => none
  | .pyother _ m => some m

/-- The `(attribute key, value)` pairs of the object that
`inspect.getmembers` can enumerate (empty for non-namespace objects). -/
def PyObj.members : PyObj → List (String × PyObj)
  | .pyclass _ _ ms => ms
  | .pymodule _ ms => ms
  | _ => []

/-- Model of `inspect.isfunction`. -/
def PyObj.isfunction : PyObj → Bool
  | .pyfunc _ _ => true
  | _ => false

/-- Model of `inspect.ismethod`. -/
def PyObj.ismethod : PyObj → Bool
  | .pymethod _ _ => true
  | _ => false

/-- Model of `inspect.isclass`. -/
def PyObj.isclass : PyObj → Bool
  | .pyclass _ _ _ => true
  | _ => false

/-- Model of `inspect.ismodule`. -/
def PyObj.ismodule : PyObj → Bool
  | .pymodule _ _ => true
  | _ => false

/-- Lexicographic comparison of character lists by code point: the order
Python uses to compare strings. -/
def charListLt : List Char → List Char → Bool
  | [], [] => false
  | [], _ :: _ => true
  | _ :: _, [] => false
  | a :: as, b :: bs => decide (a < b) || (a == b && charListLt as bs)

/-- Python's `<=` on strings (code-point lexicographic). -/
def pyStrLe (a b : String) : Prop := charListLt b.data a.data = false

/-- Ordering of attribute entries by key, the order `inspect.getmembers`
returns (it sorts the `(name, value)` pairs by the attribute name, i.e. the
key). -/
def keyLe (a b : String × PyObj) : Prop := pyStrLe a.1 b.1

instance : DecidableRel pyStrLe := fun a b =>
  inferInstanceAs (Decidable (charListLt b.data a.data = false))

instance : DecidableRel keyLe := fun a b =>
  inferInstanceAs (Decidable (pyStrLe a.1 b.1))

/-- Model of `inspect.getmembers(obj, predicate)`: the `(key, value)`
attribute pairs sorted by key, keeping those whose value satisfies the
predicate.  (`dir()` enumerates each attribute name once, so the member list
is the attribute list.) -/
def getmembers (obj : PyObj) (pred : PyObj → Bool) : List (String × PyObj) :=
  (List.insertionSort keyLe obj.members).filter (fun kv => pred kv.2)

/-- Model of Python's `str.startswith`: prefix test on the character data. -/
def startswith (s p : String) : Bool := p.data.isPrefixOf s.data

/-- The location attributes of a module object that `is_submodule` reads:
`__path__[0]` (present only for packages) and `__file__`. -/
structure PyModuleLoc where
  path0 : Option String
  file : Option String

/-- Embeds `is_submodule(child, parent)` (testgen.py:47-67): `False` when the
parent has no `__path__`; otherwise compare the child's `__path__[0]` (or,
failing that, its `__file__`) against the parent's `__path__[0]` with
`str.startswith`. -/
def is_submodule (child parent : PyModuleLoc) : Bool :=
  match parent.path0 with
  | none => false
  | some parentpath =>
    match child.path0 with
    | some childpath => startswith childpath parentpath
    | none =>
      match child.file with
      | some childpath => startswith childpath parentpath
      | none => false

/-- Embeds `is_subfunction(obj, parent)` (testgen.py:123-140): a function or
method whose `__module__` matches the parent class's `__module__`, or the
parent module's `__name__`. -/
def is_subfunction (obj parent : PyObj) : Bool :=
  if parent.isclass then
    (obj.isfunction || obj.ismethod) && obj.module? == parent.module?
  else if parent.ismodule then
    (obj.isfunction || obj.ismethod) && obj.module? == some parent.name
  else false

/-- Embeds `is_subclass(obj, parent)` (testgen.py:143-156). -/
def is_subclass (obj parent : PyObj) : Bool :=
  if parent.isclass then
    obj.isclass && obj.module? == parent.module?
  else if parent.ismodule then
    obj.isclass && obj.module? == some parent.name
  else false

/-- Embeds `get_testables(obj, ignore=None)` (testgen.py:70-83): member
values that are sub-functions or sub-classes of `obj`, keeping the entries
whose attribute *key* is not in `ignore` and returning the *values*
(`return [v for k, v in testables if k not in ignore]`).  `ignore =
set(ignore) if ignore else {}` makes the default ignore set empty. -/
def get_testables (obj : PyObj) (ignore : Option (List String)) : List PyObj :=
  let ig : List String := match ignore with | none => [] | some l => l
  let testables := getmembers obj (fun x => is_subfunction x obj || is_subclass x obj)
  (testables.filter (fun kv => !(ig.contains kv.1))).map (fun kv => kv.2)

/-- Embeds `indent(text, n, spaces)` (testgen.py:159-168), i.e.
`textwrap.indent(text, " " * n * spaces)`: each line that is not pure
whitespace gets the prefix. -/
def indent (text : List String) (n : Nat) (spaces : Nat) : List String :=
  let pre := String.mk (List.replicate (n * spaces) ' ')
  text.map (fun line => if line.data.all (fun c => c.isWhitespace) then line else pre ++ line)

/-- Embeds `get_function_test_name` (testgen.py:171-173). -/
def get_function_test_name (func : PyObj) : String := "test_" ++ func.name

/-- Embeds `get_class_test_name` (testgen.py:176-178). -/
def get_class_test_name (cls : PyObj) : String := "Test" ++ cls.name

/-- Embeds `exists_test(obj, context)` (testgen.py:181-193).  The local
variable `name` is assigned only for classes, functions and methods; for any
other object the first loop iteration raises `UnboundLocalError` (modelled by
`.error`), but an empty `context` never runs the loop body and falls through
to `return False` (modelled by `.ok none`).  A found item is returned
(`.ok (some item)`); Python's `False` is `.ok none`. -/
def exists_test (obj : PyObj) (context : List PyObj) : Except String (Option PyObj) :=
  let name? : Option String :=
    if obj.isclass then some (get_class_test_name obj)
    else if obj.isfunction then some (get_function_test_name obj)
    else if obj.ismethod then some (get_function_test_name obj)
    else none
  match name? with
  | some name => .ok (context.find? (fun item => item.name == name))
  | none =>
    match context with
    | [] => .ok none
    | _ :: _ => .error "UnboundLocalError: name"

/-- Truthiness of `exists_test`'s return value, as used by
`if exists_test(member, exists): ...` at call sites where `obj` is a
function, method or class (there the `.error` branch is unreachable). -/
def exists_test_b (obj : PyObj) (context : List PyObj) : Bool :=
  match exists_test obj context with
  | .ok (some _) => true
  | _ => false

/-- The value bound by `test_obj = exists_test(obj, exists)` at call sites
where `obj` is a class (there the `.error` branch is unreachable);
Python's `False` becomes `none`. -/
def exists_test_opt (obj : PyObj) (context : List PyObj) : Option PyObj :=
  match exists_test obj context with
  | .ok r => r
  | .error _ => none

/-- Embeds `format_function(function, is_method=False)` (testgen.py:253-267).
The returned Python string is a sequence of newline-terminated lines, modelled
as the list of those lines. -/
def format_function (function : PyObj) (is_method : Bool) : List String :=
  let name := get_function_test_name function
  let self := if is_method then "self" else ""
  ["@pytest.mark.skip", "def " ++ name ++ "(" ++ self ++ "):", "    pass"]

/-- Embeds `format_class(cls, n=1, exists=None)` (testgen.py:270-289), with
recursion depth bounded by the extra `fuel` argument (Python's recursion is
unbounded; the wrapper `format_class` below supplies `sizeOf cls`, which is
always sufficient because every recursive call is on a structurally smaller
member, see `format_class_fuel_congr`).  `exists = set(exists) if exists
else {}` makes the suppression set empty for `None` (and for an empty list);
the set is modelled as the list of its elements, which is faithful because
only membership-by-name queries are made of it.  In the member loop, the
source's `continue` after a positive `exists_test` cannot skip the
`is_subclass` branch in any reachable way, since no object satisfies both
`is_subfunction` and `is_subclass`; the two branches are therefore sequenced
directly. -/
def format_class_fuel : Nat → PyObj → Nat → Option (List PyObj) → List String
  | 0, _, _, _ => []
  | Nat.succ fuel, cls, n, e =>
    let name := get_class_test_name cls
    let ex : List PyObj := match e with | none => [] | some l => l
    let body : List String :=
      if ex.isEmpty then
        ["@pytest.mark.skip", "class " ++ name ++ ":", "    '''", "    '''"]
      else []
    (get_testables cls (some ["__init__"])).foldl (fun body member =>
      let body :=
        if is_subfunction member cls then
          if exists_test_b member ex then body
          else body ++ indent (format_function member true) n 4
        else body
      if is_subclass member cls then
        let exists_in_subcls := get_testables member (some ["__init__"])
        let exists_in_subcls := if exists_in_subcls.isEmpty then [member] else exists_in_subcls
        body ++ indent (format_class_fuel fuel member 1 (some exists_in_subcls)) n 4
      else body) body
termination_by structural fuel _ _ _ => fuel

mutual

/-- Structural size of a `PyObj`, used as a fuel bound for `format_class`:
every member of an object has strictly smaller size. -/
def PyObj.size : PyObj → Nat
  | .pyfunc _ _ => 1
  | .pymethod _ _ => 1
  | .pyclass _ _ ms => 1 + PyObj.sizeList ms
  | .pymodule _ ms => 1 + PyObj.sizeList ms
  | .pyother _ _ => 1

/-- Total size of the values of an attribute list. -/
def PyObj.sizeList : List (String × PyObj) → Nat
  | [] => 0
  | (_, x) :: xs => PyObj.size x + PyObj.sizeList xs

end

/-- The source's `format_class(cls, n, exists)`: the fueled embedding run
with enough fuel for the whole nested-class recursion. -/
def format_class (cls : PyObj) (n : Nat) (e : Option (List PyObj)) : List String :=
  format_class_fuel cls.size cls n e

/-- Embeds the body of the per-leaf loop of `generate_tests`
(testgen.py:317-345): the lines appended to one leaf's test file, given the
already-declared test entities `exists'` (wording of the source's `exists`)
of the loaded test module and the leaf's own `members`.  A function writes
its stub plus the extra newline from `f.write(body + "\n")` only when no
matching test exists (the `continue` writes nothing); a class always writes
`format_class`'s text plus the extra newline, with the suppression set taken
from the matching test class's own testables when one exists (the bindings
to `existing_items` in the source are dead code — the value is never read —
and are omitted).  A member that is neither a function nor a class (e.g. a
bound method at module level) matches no branch and writes nothing. -/
def generate_tests_lines (exists' : List PyObj) (members : List PyObj) : List String :=
  members.foldl (fun body obj =>
    if obj.isfunction then
      if exists_test_b obj exists' then body
      else body ++ format_function obj obj.ismethod ++ [""]
    else if obj.isclass then
      body ++
        (match exists_test_opt obj exists' with
         | some test_obj =>
           let exists_in_cls := get_testables test_obj none
           let exists_in_cls := if exists_in_cls.isEmpty then [obj] else exists_in_cls
           format_class obj 1 (some exists_in_cls)
         | none => format_class obj 1 none) ++ [""]
    else body) []

/-- Filesystem state: file contents (as line lists, `none` when the path does
not exist) and the set of directories created. -/
structure FS where
  files : String → Option (List String)
  dirs : String → Bool

/-- Model of `Path.mkdir(exist_ok=True, parents=True)` for the purposes of
this development: record the directory (parent directories are irrelevant to
every claim and are not tracked individually). -/
def FS.mkdir (fs : FS) (p : String) : FS :=
  { fs with dirs := fun q => if q == p then true else fs.dirs q }

/-- Model of `open(path, "a")` followed by writing `lines`: creates the file
when absent and appends at the end, leaving existing content untouched. -/
def FS.append_lines (fs : FS) (p : String) (lines : List String) : FS :=
  { fs with files := fun q => if q == p then some (((fs.files p).getD []) ++ lines) else fs.files q }

/-- Model of Python's `sep.join(parts)`. -/
def py_join (sep : String) : List String → String
  | [] => ""
  | [x] => x
  | x :: y :: rest => x ++ sep ++ py_join sep (y :: rest)

/-- Split a character list at every occurrence of the character `sep`
(model of Python's `str.split` with a one-character separator). -/
def py_split_chars (sep : Char) : List Char → List (List Char)
  | [] => [[]]
  | c :: t =>
    match py_split_chars sep t with
    | [] => [[]]
    | h :: r => if c == sep then [] :: h :: r else (c :: h) :: r

/-- Model of Python's `s.split(sep)` for a one-character separator. -/
def py_split (s : String) (sep : Char) : List String :=
  (py_split_chars sep s.data).map String.mk

/-- Model of Python's `s[:-n]` (drop the last `n` characters). -/
def py_dropRight (s : String) (n : Nat) : String :=
  String.mk (s.data.take (s.data.length - n))

/-- Model of `pathlib` `/`-joining: empty components are ignored. -/
def path_join (parts : List String) : String :=
  py_join "/" (parts.filter (fun s => !(s == "")))

/-- Embeds the leaf branch of `_help_setup_files` (testgen.py:215-234): build
the test file name from the last dotted component, create the parent
directory, compute the dotted import name of the test module (`base.stem` is
modelled as the last path component of `base`; `os.chdir` affects no claim
and is dropped), seed the file with its import header when it does not exist
yet, and return the `(fullpath, submod, testmod)` entry. -/
def _help_file (base : String) (name : String) (submod : PyObj) (fs : FS) :
    FS × (String × PyObj × String) :=
  let parts := py_split name '.'
  let filename := "test_" ++ (parts.getLastD "") ++ ".py"
  let mids := (parts.drop 1).dropLast
  let fullpath := path_join [base, py_join "/" mids, filename]
  let fs := fs.mkdir (path_join [base, py_join "/" mids])
  let stem := (py_split base '/').getLastD ""
  let testmod := stem ++ "." ++ py_join "." mids ++ "." ++ py_dropRight filename 3
  let fs :=
    if (fs.files fullpath).isNone then
      let items := py_join "," ((get_testables submod none).map PyObj.name)
      let import_name :=
        if !(items == "") then "from " ++ name ++ " import " ++ items
        else "import " ++ name
      fs.append_lines fullpath [import_name, "import pytest"]
    else fs
  (fs, (fullpath, submod, testmod))

/-- The module tree produced by `get_submodule_tree`: a nested dictionary
whose leaves are module objects (`_build_tree` returns the node itself when
it has no children). -/
inductive Tree where
  | leaf (m : PyObj)
  | node (children : List (String × Tree))

/-- Embeds `_help_setup_files(base, modules)` (testgen.py:201-235).  The
source's top-level wrapping of a bare module into `{name: module}` and its
`for` loop over the dictionary are expressed as recursion over the tree; as
with `format_class`, the recursion is indexed by fuel (the theorems hold for
every fuel, and `setup_files` supplies `Tree.size`, which is sufficient).
For a dictionary-valued child the source creates the mirror directory
`base / "/".join(name.split(".")[1:])` and recurses; for a module-valued
child it creates the test file entry via the leaf branch (`_help_file`). -/
def _help_setup_files : Nat → String → Tree → FS → FS × List (String × PyObj × String)
  | 0, _, _, fs => (fs, [])
  | _ + 1, base, .leaf m, fs =>
    let r := _help_file base m.name m fs
    (r.1, [r.2])
  | _ + 1, _, .node [], fs => (fs, [])
  | fuel + 1, base, .node ((name, sub) :: rest), fs =>
    let r1 :=
      match sub with
      | .node cs =>
        let subpath := path_join [base, py_join "/" ((py_split name '.').drop 1)]
        _help_setup_files fuel base (.node cs) (fs.mkdir subpath)
      | .leaf m =>
        let r := _help_file base name m fs
        (r.1, [r.2])
    let r2 := _help_setup_files fuel base (.node rest) r1.1
    (r2.1, r1.2 ++ r2.2)
termination_by structural fuel _ _ _ => fuel

/-- Structural size of a tree, a sufficient fuel for `_help_setup_files`. -/
def Tree.size : Tree → Nat
  | .leaf _ => 1
  | .node [] => 1
  | .node ((_, sub) :: rest) => 1 + sub.size + (Tree.node rest).size

/-- Embeds `setup_files(path, modules)` (testgen.py:238-250): create the
output directory and populate it. -/
def setup_files (path : String) (modules : Tree) (fs : FS) :
    FS × List (String × PyObj × String) :=
  _help_setup_files modules.size path modules (fs.mkdir path)

/-- Embeds `generate_tests(mods)` (testgen.py:308-345) as a filesystem
transformer.  `load` models `importlib.import_module`: `some` the namespace
object obtained by loading the dotted test-module name, `none` a raised
`ModuleNotFoundError` (the interpreter's import machinery is outside the
source and is a parameter of the model).  The import happens first in each
loop iteration, before the leaf's file is opened: a raised error therefore
aborts the whole loop with that leaf's file untouched, and the returned pair
carries the filesystem as reached together with the propagated exception
(`none` when the loop runs to completion). -/
def generate_tests (load : String → Option PyObj) :
    List (String × PyObj × String) → FS → FS × Option String
  | [], fs => (fs, none)
  | entry :: rest, fs =>
    match load entry.2.2 with
    | none => (fs, some ("ModuleNotFoundError: " ++ entry.2.2))
    | some test_mod =>
      generate_tests load rest
        (fs.append_lines entry.1
          (generate_tests_lines (get_testables test_mod none) (get_testables entry.2.1 none)))

/-- The constraint every model of `importlib.import_module` satisfies: a
dotted module name with an empty component — such as `tests..test_m`, whose
dot-split contains `""` — can never be imported, because resolving it
requires first importing the parent package named `tests.`, a module name no
finder accepts; the call raises `ModuleNotFoundError` in every
environment. -/
def py_import_model (load : String → Option PyObj) : Prop :=
  ∀ nm : String, "" ∈ py_split nm '.' → load nm = none

/-- Embeds the `__main__` block (testgen.py:348-369).  With an argument count
other than 3 (`len(sys.argv) != 3`: program name plus the two expected
arguments) the program prints the usage banner (modelled by the returned
flag) and does nothing else; otherwise it resolves the root module and its
submodule tree (`importlib.import_module` plus `get_submodule_tree` inspect
live interpreter state and are modelled by the `import_tree` parameter),
materializes the files and generates the tests.  The result is the final
filesystem, the exception propagated out of the generation loop (if any),
and the usage-banner flag. -/
def main_run (argv : List String) (import_tree : String → Tree) (load : String → Option PyObj)
    (fs : FS) : FS × Option String × Bool :=
  if argv.length ≠ 3 then (fs, none, true)
  else
    let modname := (argv.drop (argv.length - 2)).headD ""
    let out := argv.getLastD ""
    let modules := import_tree modname
    let r := setup_files out modules fs
    let g := generate_tests load r.2 r.1
    (g.1, g.2, false)

/-- The attribute list created by a sequence of `def`/`class` statements:
each declared object is bound at the key equal to its `__name__` (an
`import` of a name binds it the same way). -/
def bind_self (l : List PyObj) : List (String × PyObj) := l.map (fun v => (v.name, v))

/-- Reload model for one method stub emitted inside a first-run class stub:
a function or method testable of the source class declares a `test_<name>`
method attributed to the test module `tm`. -/
def stub_method (tm : String) : PyObj → Option PyObj
  | .pyfunc f _ => some (.pyfunc ("test_" ++ f) tm)
  | .pymethod f _ => some (.pyfunc ("test_" ++ f) tm)
  | _ => none

/-- Reload model for one first-run stub: the test entities that the text
emitted by a first run (against an initially empty test namespace) declares
for one module member, attributed to the test module `tm`.  Modelled from
Python's import semantics for the generated text: a `def test_f` line
declares a function, a `class TestC:` block declares a class whose body
declares a method stub for every function or method testable of the source
class.  This reading of the text is only valid when no class nested inside
another class has testables of its own (`well_nested` below): otherwise the
first run emits nested method stubs with no enclosing nested class
declaration and inconsistent indentation, and the generated file cannot
be loaded at all. -/
def stub_artifact (tm : String) : PyObj → List PyObj
  | .pyfunc f _ => [.pyfunc ("test_" ++ f) tm]
  | .pyclass c cm ms =>
    [.pyclass ("Test" ++ c) tm
      (bind_self ((get_testables (.pyclass c cm ms) (some ["__init__"])).filterMap
        (stub_method tm)))]
  | _ => []

/-- The test artifacts declared by the whole text a first run appends for the
given (sorted, filtered) module testables: one stub per function, one stub
class with method stubs per class, nothing for other members. -/
def first_run_stubs (tm : String) (members : List PyObj) : List PyObj :=
  members.flatMap (stub_artifact tm)

/-- Model of the namespace obtained by reloading the test file after a first
run against the module `mn` with attribute list `mems`: the import header
binds the source module's testables at their own names (still attributed to
module `mn`), and the appended stub text declares `first_run_stubs` (a
faithful reading of the emitted text whenever the module is `well_nested`;
otherwise the emitted text is not even importable, see the C1
counterexample). -/
def reloaded_test_module (tm mn : String) (mems : List (String × PyObj)) : PyObj :=
  .pymodule tm (bind_self (get_testables (.pymodule mn mems) none) ++
    bind_self (first_run_stubs tm (get_testables (.pymodule mn mems) none)))

/-- The condition under which the first run's emitted text is well-formed
Python whose declarations are `stub_artifact`: no class nested inside a
(module-level) class has testables of its own. -/
def well_nested (m : PyObj) : Bool :=
  (get_testables m none).all fun c =>
    (get_testables c (some ["__init__"])).all fun d =>
      !d.isclass || (get_testables d (some ["__init__"])).isEmpty

/-- Infix test on character lists (used to state properties of emitted
lines). -/
def containsSeq (p : List Char) : List Char → Bool
  | [] => p.isEmpty
  | c :: t => p.isPrefixOf (c :: t) || containsSeq p t

/-- Substring test on strings (used to state properties of emitted lines). -/
def strContains (s pat : String) : Bool := containsSeq pat.data s.data

/-! ### Concrete scenarios used by several claims -/

/-- The filesystem with no files and no directories. -/
def fs_empty : FS := ⟨fun _ => none, fun _ => false⟩

/-- Root module of spec scenario C2: functions `a`, `b` and class `C` with
single method `m`, each bound at its own name. -/
def moduleC2 : PyObj :=
  .pymodule "m" [("a", .pyfunc "a" "m"), ("b", .pyfunc "b" "m"),
                 ("C", .pyclass "C" "m" [("m", .pyfunc "m" "m")])]

/-- Module with a same-module alias: the attribute `bar` is bound to the
same function object as `foo` (`bar = foo` after `def foo`), so two
attribute keys carry one `__name__`. -/
def moduleC5alias : PyObj :=
  .pymodule "m" [("bar", .pyfunc "foo" "m"), ("foo", .pyfunc "foo" "m")]

/-- Source class with a nested class `D` that has a method `n` (the input on
which the nested-class formatting claims fail). -/
def clsC4 : PyObj := .pyclass "C" "m" [("D", .pyclass "D" "m" [("n", .pyfunc "n" "m")])]

/-- A pre-existing test artifact for the nested class `D` that already
contains `test_n` (as `get_testables` of an existing `TestC` would supply
it). -/
def artTestD : PyObj := .pyclass "TestD" "tm" [("test_n", .pyfunc "test_n" "tm")]

/-- Root module containing `clsC4`, the C1 counterexample input. -/
def moduleC1bad : PyObj := .pymodule "m" [("C", clsC4)]

/-- Source module of scenario C3: class `C` with methods `m` and `n`. -/
def moduleC3 : PyObj :=
  .pymodule "m" [("C", .pyclass "C" "m" [("m", .pyfunc "m" "m"), ("n", .pyfunc "n" "m")])]

/-- Loaded test namespace of scenario C3: the imported `C` (defined in module
`m`, hence not a test artifact of the test module `tm`) and a hand-written
`TestC` that already contains `test_m`. -/
def testModC3 : PyObj :=
  .pymodule "tm"
    [("C", .pyclass "C" "m" [("m", .pyfunc "m" "m"), ("n", .pyfunc "n" "m")]),
     ("TestC", .pyclass "TestC" "tm" [("test_m", .pyfunc "test_m" "tm")])]

/-- A filesystem already holding a C3 test file (used by the C3 witness). -/
def fsC3 : FS :=
  ⟨fun q => if q == "tests/test_m.py" then some ["import pytest"] else none, fun _ => false⟩

/-- A filesystem already holding a file (used by the C8 witness). -/
def fsC8 : FS := ⟨fun q => if q == "keep.py" then some ["x = 1"] else none, fun _ => false⟩

/-! ### Helper lemmas -/

theorem charListLt_irrefl : ∀ x : List Char, charListLt x x = false := by
  intro x
  induction x with
  | nil => rfl
  | cons a as ih => simp [charListLt, ih]

theorem charListLt_asymm : ∀ {x y : List Char},
    charListLt x y = true → charListLt y x = false := by
  intro x
  induction x with
  | nil =>
    intro y h
    cases y with
    | nil => cases h
    | cons b bs => rfl
  | cons a as ih =>
    intro y h
    cases y with
    | nil => cases h
    | cons b bs =>
      simp only [charListLt, Bool.or_eq_true, Bool.and_eq_true, decide_eq_true_eq,
        beq_iff_eq] at h ⊢
      rcases h with h | ⟨rfl, h⟩
      · simp [Bool.or_eq_false_iff, not_lt_of_lt h, ne_of_gt h]
      · simp [charListLt_irrefl, lt_irrefl, ih h]

theorem charListLt_trichotomy : ∀ x y : List Char,
    charListLt x y = true ∨ x = y ∨ charListLt y x = true := by
  intro x
  induction x with
  | nil =>
    intro y
    cases y with
    | nil => exact Or.inr (Or.inl rfl)
    | cons b bs => exact Or.inl rfl
  | cons a as ih =>
    intro y
    cases y with
    | nil => exact Or.inr (Or.inr rfl)
    | cons b bs =>
      rcases lt_trichotomy a b with hab | rfl | hba
      · exact Or.inl (by simp [charListLt, hab])
      · rcases ih bs with h | rfl | h
        · exact Or.inl (by simp [charListLt, h])
        · exact Or.inr (Or.inl rfl)
        · exact Or.inr (Or.inr (by simp [charListLt, h]))
      · exact Or.inr (Or.inr (by simp [charListLt, hba]))

theorem charListLt_trans : ∀ {x y z : List Char},
    charListLt x y = true → charListLt y z = true → charListLt x z = true := by
  intro x
  induction x with
  | nil =>
    intro y z hxy hyz
    cases y with
    | nil => cases hxy
    | cons b bs =>
      cases z with
      | nil => cases hyz
      | cons c cs => rfl
  | cons a as ih =>
    intro y z hxy hyz
    cases y with
    | nil => cases hxy
    | cons b bs =>
      cases z with
      | nil => cases hyz
      | cons c cs =>
        simp only [charListLt, Bool.or_eq_true, Bool.and_eq_true, decide_eq_true_eq,
          beq_iff_eq] at hxy hyz ⊢
        rcases hxy with h1 | ⟨rfl, h1⟩
        · rcases hyz with h2 | ⟨rfl, h2⟩
          · exact Or.inl (lt_trans h1 h2)
          · exact Or.inl h1
        · rcases hyz with h2 | ⟨rfl, h2⟩
          · exact Or.inl h2
          · exact Or.inr ⟨rfl, ih h1 h2⟩

instance : IsTotal (String × PyObj) keyLe := by
  refine ⟨fun a b => ?_⟩
  by_cases h : charListLt b.1.data a.1.data = true
  · exact Or.inr (charListLt_asymm h)
  · exact Or.inl (by simpa [keyLe, pyStrLe] using h)

instance : IsTrans (String × PyObj) keyLe := by
  refine ⟨fun a b c hab hbc => ?_⟩
  simp only [keyLe, pyStrLe] at *
  by_contra h
  rw [Bool.not_eq_false] at h
  rcases charListLt_trichotomy c.1.data b.1.data with h1 | h1 | h1
  · rw [h1] at hbc; cases hbc
  · rw [h1] at h; rw [h] at hab; cases hab
  · rcases charListLt_trichotomy a.1.data b.1.data with h2 | h2 | h2
    · rw [charListLt_trans h h2] at hbc; cases hbc
    · rw [h2] at h; rw [h] at hbc; cases hbc
    · rw [h2] at hab; cases hab

theorem get_testables_eq (obj : PyObj) (ig : Option (List String)) :
    get_testables obj ig =
      (((List.insertionSort keyLe obj.members).filter
          (fun kv => is_subfunction kv.2 obj || is_subclass kv.2 obj)).filter
        (fun kv =>
          !((match ig with | none => ([] : List String) | some l => l).contains kv.1))).map
        (fun kv => kv.2) := rfl

theorem mem_get_testables {x obj : PyObj} {ig : Option (List String)} :
    x ∈ get_testables obj ig ↔
      ∃ k, (k, x) ∈ obj.members ∧ (is_subfunction x obj || is_subclass x obj) = true ∧
        (match ig with | none => ([] : List String) | some l => l).contains k = false := by
  rw [get_testables_eq]
  simp only [List.mem_map, List.mem_filter,
    (List.perm_insertionSort keyLe obj.members).mem_iff, Bool.not_eq_true']
  constructor
  · rintro ⟨⟨k, v⟩, ⟨⟨hm, hp⟩, hq⟩, rfl⟩
    exact ⟨k, hm, hp, hq⟩
  · rintro ⟨k, hm, hp, hq⟩
    exact ⟨(k, x), ⟨⟨hm, hp⟩, hq⟩, rfl⟩

theorem mem_bind_self {l : List PyObj} {k : String} {x : PyObj} :
    (k, x) ∈ bind_self l ↔ x ∈ l ∧ k = x.name := by
  simp only [bind_self, List.mem_map, Prod.mk.injEq]
  constructor
  · rintro ⟨v, hv, h1, rfl⟩
    exact ⟨hv, h1.symm⟩
  · rintro ⟨hx, rfl⟩
    exact ⟨x, hx, rfl, rfl⟩

theorem size_pos (o : PyObj) : 1 ≤ o.size := by
  cases o <;> simp only [PyObj.size] <;> omega

theorem size_le_sizeList {k : String} {x : PyObj} {l : List (String × PyObj)}
    (h : (k, x) ∈ l) : x.size ≤ PyObj.sizeList l := by
  induction l with
  | nil => cases h
  | cons y t ih =>
    obtain ⟨yk, yv⟩ := y
    rcases List.mem_cons.mp h with h' | h'
    · injection h' with e1 e2
      subst e2
      simp only [PyObj.sizeList]
      omega
    · have := ih h'
      simp only [PyObj.sizeList]
      omega

theorem size_lt_of_mem_members {k : String} {x o : PyObj} (h : (k, x) ∈ o.members) :
    x.size < o.size := by
  cases o with
  | pyclass nm md ms =>
    have := size_le_sizeList (l := ms) h
    simp only [PyObj.size]
    omega
  | pymodule nm ms =>
    have := size_le_sizeList (l := ms) h
    simp only [PyObj.size]
    omega
  | pyfunc nm md => cases h
  | pymethod nm md => cases h
  | pyother nm md => cases h

theorem foldl_congr_mem {α β : Type} {l : List α} {f g : β → α → β} {b : β}
    (h : ∀ acc x, x ∈ l → f acc x = g acc x) : l.foldl f b = l.foldl g b := by
  induction l generalizing b with
  | nil => rfl
  | cons x t ih =>
    simp only [List.foldl_cons]
    rw [h b x (List.mem_cons_self x t)]
    exact ih (fun acc y hy => h acc y (List.mem_cons_of_mem x hy))

theorem format_class_fuel_congr :
    ∀ fuel : Nat, ∀ {cls : PyObj} {n : Nat} {e : Option (List PyObj)},
      cls.size ≤ fuel → format_class_fuel fuel cls n e = format_class cls n e := by
  intro fuel
  induction fuel using Nat.strong_induction_on with
  | _ fuel ih =>
    intro cls n e hle
    have hpos := size_pos cls
    obtain ⟨k, rfl⟩ : ∃ k, fuel = k + 1 := ⟨fuel - 1, by omega⟩
    obtain ⟨s, hs⟩ : ∃ s, cls.size = s + 1 := ⟨cls.size - 1, by omega⟩
    show format_class_fuel (k + 1) cls n e = format_class_fuel cls.size cls n e
    rw [hs]
    simp only [format_class_fuel]
    refine foldl_congr_mem ?_
    intro acc member hmem
    obtain ⟨kk, hm, -, -⟩ := mem_get_testables.mp hmem
    have hlt : member.size < cls.size := size_lt_of_mem_members hm
    by_cases hc : is_subclass member cls = true
    · simp only [hc, if_true]
      rw [ih k (by omega) (show member.size ≤ k by omega),
        ih s (by omega) (show member.size ≤ s by omega)]
    · simp [hc]

theorem data_test_name (a : String) :
    ("test_" ++ a).data = 't' :: 'e' :: 's' :: 't' :: '_' :: a.data := by
  rw [String.data_append]; rfl

theorem data_class_name (a : String) :
    ("Test" ++ a).data = 'T' :: 'e' :: 's' :: 't' :: a.data := by
  rw [String.data_append]; rfl

theorem test_name_ne_class_name (a b : String) : ("test_" ++ a) ≠ ("Test" ++ b) := by
  intro h
  have hd := congrArg String.data h
  rw [data_test_name, data_class_name] at hd
  injection hd with h1 _
  exact absurd h1 (by decide)

theorem class_name_inj {a b : String} (h : ("Test" ++ a) = ("Test" ++ b)) : a = b := by
  have hd := congrArg String.data h
  rw [data_class_name, data_class_name] at hd
  injection hd with _ hd
  injection hd with _ hd
  injection hd with _ hd
  injection hd with _ hd
  exact String.ext hd

theorem exists_test_func (f fm : String) (ctx : List PyObj) :
    exists_test (.pyfunc f fm) ctx =
      .ok (ctx.find? fun item => item.name == "test_" ++ f) := by
  simp [exists_test, PyObj.isclass, PyObj.isfunction, get_function_test_name, PyObj.name]

theorem exists_test_method (f fm : String) (ctx : List PyObj) :
    exists_test (.pymethod f fm) ctx =
      .ok (ctx.find? fun item => item.name == "test_" ++ f) := by
  simp [exists_test, PyObj.isclass, PyObj.isfunction, PyObj.ismethod,
    get_function_test_name, PyObj.name]

theorem exists_test_class (c cm : String) (ms : List (String × PyObj)) (ctx : List PyObj) :
    exists_test (.pyclass c cm ms) ctx =
      .ok (ctx.find? fun item => item.name == "Test" ++ c) := by
  simp [exists_test, PyObj.isclass, get_class_test_name, PyObj.name]

theorem find?_name_isSome {nm : String} {ctx : List PyObj} :
    (ctx.find? fun item => item.name == nm).isSome = true ↔ ∃ x ∈ ctx, x.name = nm := by
  rw [List.find?_isSome]; simp

theorem exists_test_b_func {f fm : String} {ctx : List PyObj} :
    exists_test_b (.pyfunc f fm) ctx = true ↔ ∃ x ∈ ctx, x.name = "test_" ++ f := by
  have h : exists_test_b (.pyfunc f fm) ctx =
      (ctx.find? fun item => item.name == "test_" ++ f).isSome := by
    rw [exists_test_b, exists_test_func]
    rcases hf : ctx.find? (fun item => item.name == "test_" ++ f) with _ | x <;> rw [hf] <;> rfl
  rw [h, find?_name_isSome]

theorem exists_test_b_method {f fm : String} {ctx : List PyObj} :
    exists_test_b (.pymethod f fm) ctx = true ↔ ∃ x ∈ ctx, x.name = "test_" ++ f := by
  have h : exists_test_b (.pymethod f fm) ctx =
      (ctx.find? fun item => item.name == "test_" ++ f).isSome := by
    rw [exists_test_b, exists_test_method]
    rcases hf : ctx.find? (fun item => item.name == "test_" ++ f) with _ | x <;> rw [hf] <;> rfl
  rw [h, find?_name_isSome]

theorem isPrefixOf_refl (l : List Char) : l.isPrefixOf l = true := by
  induction l with
  | nil => rfl
  | cons a as ih => simp [List.isPrefixOf, ih]

/-! ### Claims -/

/-- Claim C6, counterexample.  The claim says the submodule test never
accepts a candidate at the identical storage path or at an unrelated path
that merely shares a string prefix; the code's `str.startswith` comparison
accepts both: a candidate whose `__path__[0]` equals the parent's is
accepted, and so is a sibling package `/repo/pkg2` under parent
`/repo/pkg`. -/
theorem c6_counterexample :
    is_submodule ⟨some "/repo/pkg", none⟩ ⟨some "/repo/pkg", none⟩ = true ∧
    is_submodule ⟨some "/repo/pkg2", none⟩ ⟨some "/repo/pkg", none⟩ = true := by
  exact ⟨by decide, by decide⟩

/-- Claim C6, amended.  `is_submodule` accepts a candidate exactly when the
parent has a package path and the candidate's package path (or, for a plain
module, its file path) string-starts-with the parent's path; in particular a
candidate at the identical package path is always accepted, whatever the
file attributes. -/
theorem c6_submodule_characterization :
    (∀ child parent : PyModuleLoc,
       is_submodule child parent = true ↔
         ∃ pp, parent.path0 = some pp ∧
           ((∃ cp, child.path0 = some cp ∧ startswith cp pp = true) ∨
            (child.path0 = none ∧ ∃ cf, child.file = some cf ∧ startswith cf pp = true))) ∧
    (∀ pp cfile pfile, is_submodule ⟨some pp, cfile⟩ ⟨some pp, pfile⟩ = true) := by
  constructor
  · intro child parent
    obtain ⟨cp, cf⟩ := child
    obtain ⟨pp, pf⟩ := parent
    cases pp <;> cases cp <;> cases cf <;> simp [is_submodule]
  · intro pp cfile pfile
    simp [is_submodule, startswith, isPrefixOf_refl]

/-- Witness for C6 at a concrete pair of module locations with identical
package paths. -/
theorem c6_submodule_characterization_witness :
    is_submodule ⟨some "/repo", none⟩ ⟨some "/repo", some "/x.py"⟩ = true :=
  c6_submodule_characterization.2 "/repo" none (some "/x.py")

/-- Claim C7, counterexample.  The claim says that with no explicit ignore
set the extractor never returns an entity named `__init__`; but the default
ignore set is empty (`ignore = set(ignore) if ignore else {}`), so a class
whose `__init__` is defined in its own module has it extracted. -/
theorem c7_counterexample :
    "__init__" ∈
      (get_testables (.pyclass "C" "m"
          [("__init__", .pyfunc "__init__" "m"), ("foo", .pyfunc "foo" "m")]) none).map
        PyObj.name := by decide

/-- Claim C7, amended.  `get_testables` excludes exactly the attribute
entries whose key is in the caller-supplied ignore argument (the default
excludes nothing).  With the explicit `["__init__"]` list, as `format_class`
passes it, every extracted value comes from a binding at a key other than
`__init__`; in particular, for a namespace without same-module aliasing
(every key equals its value's `__name__`, as `def` statements bind them) no
extracted entity is named `__init__`. -/
theorem c7_explicit_ignore_excludes_init :
    (∀ obj x : PyObj, x ∈ get_testables obj (some ["__init__"]) →
       ∃ k, k ≠ "__init__" ∧ (k, x) ∈ obj.members) ∧
    (∀ obj : PyObj, (∀ kv ∈ obj.members, kv.1 = kv.2.name) →
       "__init__" ∉ (get_testables obj (some ["__init__"])).map PyObj.name) := by
  constructor
  · intro obj x hx
    obtain ⟨k, hm, -, hq⟩ := mem_get_testables.mp hx
    refine ⟨k, ?_, hm⟩
    intro hk
    subst hk
    exact absurd hq (by decide)
  · intro obj halias h
    rw [List.mem_map] at h
    obtain ⟨x, hx, hnm⟩ := h
    obtain ⟨k, hm, -, hq⟩ := mem_get_testables.mp hx
    have hk : k = "__init__" := by
      have h1 : k = x.name := halias (k, x) hm
      rw [h1]
      exact hnm
    subst hk
    exact absurd hq (by decide)

/-- Witness for C7 at the concrete class of the counterexample, now with the
explicit ignore list (its attribute keys all equal the bound values'
names). -/
theorem c7_explicit_ignore_excludes_init_witness :
    "__init__" ∉ (get_testables (.pyclass "C" "m"
        [("__init__", .pyfunc "__init__" "m"), ("foo", .pyfunc "foo" "m")])
      (some ["__init__"])).map PyObj.name :=
  c7_explicit_ignore_excludes_init.2 _ (by decide)

/-- Claim C9 (confirmed).  When the argument count differs from the expected
two arguments plus program name (`len(sys.argv) != 3`), the program prints
the usage banner (the returned flag) and performs no filesystem modification:
the state is returned untouched — no directory created, no file created or
appended. -/
theorem c9_usage_no_side_effects (argv : List String) (import_tree : String → Tree)
    (load : String → Option PyObj) (fs : FS) (h : argv.length ≠ 3) :
    main_run argv import_tree load fs = (fs, none, true) := by
  simp [main_run, h]

/-- Witness for C9 at a concrete invocation with no arguments. -/
theorem c9_usage_no_side_effects_witness :
    (["testgen"] : List String).length ≠ 3 ∧
    main_run ["testgen"] (fun _ => .node []) (fun _ => none) fs_empty =
      (fs_empty, none, true) :=
  ⟨by decide, c9_usage_no_side_effects _ _ _ _ (by decide)⟩

/-- Claim C10, counterexample.  The claim says that for an argument that is
not a class, function or method the lookup fails (the `name` variable being
unassigned); but with an empty candidate list the loop body never runs and
the function returns the negative result without any error — only a
non-empty list reaches the unassigned variable. -/
theorem c10_counterexample :
    exists_test (.pymodule "mod" []) [] = .ok none ∧
    exists_test (.pymodule "mod" []) [.pyfunc "test_x" "t"] =
      .error "UnboundLocalError: name" :=
  ⟨rfl, rfl⟩

/-- Claim C10, amended.  For a class, `exists_test` totally computes
`Test<Name>` and returns the first candidate with exactly that name (or the
negative result); for a function or method it does the same with
`test_<name>`; for any other kind of argument the `name` variable is never
assigned and the call raises exactly when the candidate list is non-empty —
an empty list returns the negative result without error. -/
theorem c10_exists_test_behaviour :
    (∀ obj ctx, obj.isclass = true →
       exists_test obj ctx = .ok (ctx.find? fun item => item.name == get_class_test_name obj)) ∧
    (∀ obj ctx, obj.isfunction = true ∨ obj.ismethod = true →
       exists_test obj ctx = .ok (ctx.find? fun item => item.name == get_function_test_name obj)) ∧
    (∀ obj : PyObj, ∀ ctx : List PyObj,
       obj.isclass = false → obj.isfunction = false → obj.ismethod = false →
       exists_test obj ctx =
         (match ctx with
          | [] => .ok none
          | _ :: _ => .error "UnboundLocalError: name")) := by
  refine ⟨?_, ?_, ?_⟩
  · intro obj ctx h
    cases obj <;> simp_all [exists_test, PyObj.isclass]
  · intro obj ctx h
    cases obj <;> rcases h with h | h <;>
      simp_all [exists_test, PyObj.isclass, PyObj.isfunction, PyObj.ismethod]
  · intro obj ctx h1 h2 h3
    cases obj <;> simp_all [exists_test, PyObj.isclass, PyObj.isfunction, PyObj.ismethod]

/-- Witness for C10 at a concrete class and candidate list. -/
theorem c10_exists_test_behaviour_witness :
    (PyObj.pyclass "C" "m" []).isclass = true ∧
    exists_test (.pyclass "C" "m" []) [.pyclass "TestC" "t" []] =
      .ok (([.pyclass "TestC" "t" []] : List PyObj).find? fun item =>
        item.name == get_class_test_name (.pyclass "C" "m" [])) :=
  ⟨rfl, c10_exists_test_behaviour.1 _ _ rfl⟩

/-- Claim C2, evaluation at the failing input (code bug).  For the root
module `m` defining functions `a`, `b` and class `C` with method `m`, and
output directory `tests`, the materializer creates the test file with only
its import header — but computes the dotted test-module name
`tests..test_m`: the leaf has dotted depth 1, so
`".".join(name.split(".")[1:-1])` is empty and the f-string at
testgen.py:221-223 leaves two adjacent dots.  That name has an empty dotted
component, so under every conforming import model (`py_import_model`) the
generation loop's `importlib.import_module` call (testgen.py:319) raises
`ModuleNotFoundError` before anything is appended: the run ends with the
file still holding only the header, no stub for `a`, `b` or `C.m` ever
written, contrary to the claimed produced stubs. -/
theorem c2_first_run_import_error (load : String → Option PyObj)
    (hload : py_import_model load) :
    (_help_file "tests" "m" moduleC2 fs_empty).2.2.2 = "tests..test_m" ∧
    "" ∈ py_split "tests..test_m" '.' ∧
    ((_help_file "tests" "m" moduleC2 fs_empty).1.files "tests/test_m.py" =
       some ["from m import C,a,b", "import pytest"]) ∧
    generate_tests load [(_help_file "tests" "m" moduleC2 fs_empty).2]
        (_help_file "tests" "m" moduleC2 fs_empty).1 =
      ((_help_file "tests" "m" moduleC2 fs_empty).1,
       some ("ModuleNotFoundError: " ++ "tests..test_m")) := by
  have he : ((_help_file "tests" "m" moduleC2 fs_empty).2).2.2 = "tests..test_m" := by decide
  have hstep : ∀ (e : String × PyObj × String) (fs : FS), load e.2.2 = none →
      generate_tests load [e] fs = (fs, some ("ModuleNotFoundError: " ++ e.2.2)) := by
    intro e fs h
    simp only [generate_tests, h]
  refine ⟨he, by decide, by decide, ?_⟩
  rw [hstep _ _ (by rw [he]; exact hload _ (by decide)), he]

/-- Witness for C2 at the concrete always-failing import model (which
satisfies `py_import_model` trivially). -/
theorem c2_first_run_import_error_witness :
    py_import_model (fun _ => none) ∧
    ((_help_file "tests" "m" moduleC2 fs_empty).2.2.2 = "tests..test_m" ∧
     "" ∈ py_split "tests..test_m" '.' ∧
     ((_help_file "tests" "m" moduleC2 fs_empty).1.files "tests/test_m.py" =
        some ["from m import C,a,b", "import pytest"]) ∧
     generate_tests (fun _ => none) [(_help_file "tests" "m" moduleC2 fs_empty).2]
         (_help_file "tests" "m" moduleC2 fs_empty).1 =
       ((_help_file "tests" "m" moduleC2 fs_empty).1,
        some ("ModuleNotFoundError: " ++ "tests..test_m"))) :=
  ⟨fun _ _ => rfl, c2_first_run_import_error (fun _ => none) (fun _ _ => rfl)⟩

/-- Claim C4, evaluation at the failing input.  The formatter, meeting the
nested class `D` (with method `n`) inside `C`, recurses with `D`'s own source
testables as the suppression set — not `D`'s pre-existing test artifacts — so
even when a `TestD` artifact containing `test_n` is in the suppression set it
emits the `test_n` stub again, and it never emits a `class TestD` declaration
(with or without existing artifacts), contrary to the claim. -/
theorem c4_nested_class_eval :
    format_class clsC4 1 (some [artTestD]) =
      ["        @pytest.mark.skip", "        def test_n(self):", "            pass"] ∧
    (format_class clsC4 1 (some [artTestD])).all (fun l => !(strContains l "class TestD")) = true ∧
    format_class clsC4 1 none =
      ["@pytest.mark.skip", "class TestC:", "    '''", "    '''",
       "        @pytest.mark.skip", "        def test_n(self):", "            pass"] ∧
    (format_class clsC4 1 none).all (fun l => !(strContains l "class TestD")) = true := by
  refine ⟨by decide, by decide, by decide, by decide⟩

/-- Claim C1, counterexample.  For a root module whose class `C` contains a
nested class `D` with method `n`, the first run (empty test context) emits a
stub for `n` but no `class TestD` declaration anywhere (and the `test_n` stub
sits two indentation levels below the `TestC` header, which is not valid
Python), so the emitted entity for `n` cannot be found as a matching test
artifact when the test file is reloaded — the reload itself cannot
succeed. -/
theorem c1_counterexample :
    generate_tests_lines [] (get_testables moduleC1bad none) =
      ["@pytest.mark.skip", "class TestC:", "    '''", "    '''",
       "        @pytest.mark.skip", "        def test_n(self):", "            pass", ""] ∧
    (generate_tests_lines [] (get_testables moduleC1bad none)).any
      (fun l => strContains l "def test_n") = true ∧
    (generate_tests_lines [] (get_testables moduleC1bad none)).all
      (fun l => !(strContains l "class TestD")) = true := by
  refine ⟨by decide, by decide, by decide⟩

/-- Claim C3 (confirmed).  With a loaded test namespace already declaring
`TestC` containing `test_m`, and source class `C` having methods `m` and `n`,
a run appends exactly the indented stub for `n` (plus the trailing blank line
from `write(body + "\n")`): the appended text re-declares no `TestC`,
contains no second `test_m`, and the pre-existing file content stays an
unchanged prefix. -/
theorem c3_class_gains_method (fs : FS) (old : List String) (load : String → Option PyObj)
    (hfs : fs.files "tests/test_m.py" = some old)
    (hload : load "tm" = some testModC3) :
    ((generate_tests load [("tests/test_m.py", moduleC3, "tm")] fs).1.files "tests/test_m.py" =
      some (old ++ ["    @pytest.mark.skip", "    def test_n(self):", "        pass", ""])) ∧
    (generate_tests load [("tests/test_m.py", moduleC3, "tm")] fs).2 = none ∧
    (["    @pytest.mark.skip", "    def test_n(self):", "        pass", ""] : List String).all
      (fun l => !(strContains l "class TestC") && !(strContains l "test_m")) = true := by
  have hlines : generate_tests_lines (get_testables testModC3 none)
      (get_testables moduleC3 none) =
      ["    @pytest.mark.skip", "    def test_n(self):", "        pass", ""] := by decide
  have hrun : generate_tests load [("tests/test_m.py", moduleC3, "tm")] fs =
      (fs.append_lines "tests/test_m.py"
        (generate_tests_lines (get_testables testModC3 none) (get_testables moduleC3 none)),
       none) := by
    simp only [generate_tests, hload]
  refine ⟨?_, ?_, by decide⟩
  · rw [hrun, hlines]
    simp [FS.append_lines, hfs]
  · rw [hrun]

/-- Witness for C3 at a concrete filesystem and loader. -/
theorem c3_class_gains_method_witness :
    fsC3.files "tests/test_m.py" = some ["import pytest"] ∧
    (generate_tests (fun _ => some testModC3) [("tests/test_m.py", moduleC3, "tm")] fsC3).1.files
        "tests/test_m.py" =
      some (["import pytest"] ++
        ["    @pytest.mark.skip", "    def test_n(self):", "        pass", ""]) :=
  ⟨rfl, (c3_class_gains_method fsC3 ["import pytest"] (fun _ => some testModC3) rfl rfl).1⟩

theorem py_join_ne_empty {sep : String} {l : List String} (hl : l ≠ [])
    (hx : ∀ x ∈ l, x ≠ "") : py_join sep l ≠ "" := by
  match l with
  | [] => exact absurd rfl hl
  | [x] => simpa [py_join] using hx x (by simp)
  | x :: y :: rest =>
    have h1 : x ≠ "" := hx x (by simp)
    intro hcon
    have hd := congrArg String.data hcon
    rw [show py_join sep (x :: y :: rest) = x ++ sep ++ py_join sep (y :: rest) from rfl] at hd
    rw [String.data_append, String.data_append] at hd
    rw [show ("" : String).data = [] from rfl] at hd
    have hx0 : x.data = [] := (List.append_eq_nil.mp ((List.append_eq_nil.mp hd).1)).1
    exact h1 (String.ext hx0)

theorem pairs_sorted_names {ms L : List (String × PyObj)}
    (hsub : L.Sublist (List.insertionSort keyLe ms))
    (halias : ∀ kv ∈ ms, kv.1 = kv.2.name) :
    List.Pairwise pyStrLe ((L.map (fun kv => kv.2)).map PyObj.name) := by
  rw [List.map_map]
  have hmem : ∀ kv ∈ L, kv.1 = kv.2.name := fun kv hkv =>
    halias kv ((List.perm_insertionSort keyLe ms).mem_iff.mp (hsub.subset hkv))
  have hmapeq : L.map (PyObj.name ∘ fun kv => kv.2) = L.map (fun kv => kv.1) :=
    List.map_congr_left (fun kv hkv => (hmem kv hkv).symm)
  rw [hmapeq, List.pairwise_map]
  exact List.Pairwise.sublist hsub (List.sorted_insertionSort keyLe ms)

theorem pairs_nodup_names {ms L : List (String × PyObj)}
    (hsub : L.Sublist (List.insertionSort keyLe ms))
    (h : (ms.map (fun kv => kv.2.name)).Nodup) :
    ((L.map (fun kv => kv.2)).map PyObj.name).Nodup := by
  rw [List.map_map]
  have hperm : List.Perm ((List.insertionSort keyLe ms).map (fun kv => PyObj.name kv.2))
      (ms.map (fun kv => PyObj.name kv.2)) := (List.perm_insertionSort keyLe ms).map _
  have h2 : ((List.insertionSort keyLe ms).map (fun kv => PyObj.name kv.2)).Nodup :=
    hperm.nodup_iff.mpr h
  exact h2.sublist (List.Sublist.map _ hsub)

theorem get_testables_names_sorted (obj : PyObj) (ig : Option (List String))
    (halias : ∀ kv ∈ obj.members, kv.1 = kv.2.name) :
    List.Pairwise pyStrLe ((get_testables obj ig).map PyObj.name) := by
  rw [get_testables_eq]
  exact pairs_sorted_names ((List.filter_sublist _).trans (List.filter_sublist _)) halias

theorem get_testables_names_nodup {obj : PyObj} {ig : Option (List String)}
    (h : (obj.members.map (fun kv => kv.2.name)).Nodup) :
    ((get_testables obj ig).map PyObj.name).Nodup := by
  rw [get_testables_eq]
  exact pairs_nodup_names ((List.filter_sublist _).trans (List.filter_sublist _)) h

/-- Claim C5, counterexample.  The header joins `v.__name__` over the
getmembers `(key, value)` pairs (testgen.py:227), so a module with a
same-module alias (`bar = foo`) gets the freshly created file header
`from m import foo,foo`: the name `foo` is imported twice, refuting the
claim's 'each testable name exactly once'. -/
theorem c5_counterexample :
    ((_help_file "tests" "m" moduleC5alias fs_empty).1.files "tests/test_m.py" =
       some ["from m import foo,foo", "import pytest"]) ∧
    (get_testables moduleC5alias none).map PyObj.name = ["foo", "foo"] ∧
    ¬ ((get_testables moduleC5alias none).map PyObj.name).Nodup := by
  refine ⟨by decide, by decide, by decide⟩

/-- Claim C5, amended.  For a leaf whose test file does not yet exist, the
created file's first line imports the `__name__` of every testable binding,
one occurrence per binding, in the deterministic order of the attribute
keys, followed by the fixed `import pytest` line; when the leaf has no
testables the first line is the bare `import` of the leaf.  Distinct
bindings whose values share a `__name__` (same-module aliases) therefore
produce repeated names (see the counterexample).  For a leaf without such
aliasing — every attribute key equals its value's `__name__`, which is how
`def`/`class` statements bind — the name list is duplicate-free (each name
exactly once) and sorted.  `hkeys` states a fact true of every Python
namespace (attribute keys are unique), `hne` that the bound objects have
non-empty names. -/
theorem c5_import_header (base nm : String) (m : PyObj) (fs : FS)
    (halias : ∀ kv ∈ m.members, kv.1 = kv.2.name)
    (hkeys : (m.members.map Prod.fst).Nodup)
    (hne : ∀ kv ∈ m.members, kv.2.name ≠ "")
    (habs : fs.files (_help_file base nm m fs).2.1 = none) :
    ((get_testables m none).map PyObj.name).Nodup ∧
    List.Pairwise pyStrLe ((get_testables m none).map PyObj.name) ∧
    (_help_file base nm m fs).1.files (_help_file base nm m fs).2.1 =
      some [(if (get_testables m none).isEmpty then "import " ++ nm
             else "from " ++ nm ++ " import " ++
               py_join "," ((get_testables m none).map PyObj.name)),
            "import pytest"] := by
  have hnd : (m.members.map (fun kv => kv.2.name)).Nodup := by
    have heq : m.members.map (fun kv => kv.2.name) = m.members.map Prod.fst :=
      List.map_congr_left (fun kv hkv => (halias kv hkv).symm)
    rw [heq]
    exact hkeys
  refine ⟨get_testables_names_nodup hnd, get_testables_names_sorted m none halias, ?_⟩
  simp only [_help_file] at habs ⊢
  rw [show ∀ d p, (FS.mkdir fs d).files p = fs.files p from fun _ _ => rfl]
  rw [habs]
  simp only [Option.isNone_none, if_true, FS.append_lines, FS.mkdir, beq_self_eq_true]
  rw [habs]
  simp only [Option.getD_none, List.nil_append, Option.some.injEq]
  rcases hts : get_testables m none with _ | ⟨x, xs⟩
  · simp [py_join]
  · have hnonempty : py_join "," ((x :: xs).map PyObj.name) ≠ "" := by
      refine py_join_ne_empty (by simp) ?_
      intro s hs
      rw [List.mem_map] at hs
      obtain ⟨z, hz, rfl⟩ := hs
      have hzmem : z ∈ get_testables m none := by rw [hts]; exact hz
      obtain ⟨k, hk, -, -⟩ := mem_get_testables.mp hzmem
      exact hne (k, z) hk
    simp only [List.map_cons] at hnonempty
    have hb : (py_join "," (x.name :: List.map PyObj.name xs) == "") = false :=
      beq_eq_false_iff_ne.mpr hnonempty
    simp [hb]

/-- Witness for C5: the C2 module binds each value at its own non-empty
name, has duplicate-free attribute keys, and its test file is initially
absent. -/
theorem c5_import_header_witness :
    ((∀ kv ∈ moduleC2.members, kv.1 = kv.2.name) ∧
      (moduleC2.members.map Prod.fst).Nodup ∧
      (∀ kv ∈ moduleC2.members, kv.2.name ≠ "") ∧
      fs_empty.files (_help_file "tests" "m" moduleC2 fs_empty).2.1 = none) ∧
    (((get_testables moduleC2 none).map PyObj.name).Nodup ∧
     List.Pairwise pyStrLe ((get_testables moduleC2 none).map PyObj.name) ∧
     (_help_file "tests" "m" moduleC2 fs_empty).1.files
         (_help_file "tests" "m" moduleC2 fs_empty).2.1 =
       some [(if (get_testables moduleC2 none).isEmpty then "import " ++ "m"
              else "from " ++ "m" ++ " import " ++
                py_join "," ((get_testables moduleC2 none).map PyObj.name)),
             "import pytest"]) :=
  ⟨⟨by decide, by decide, by decide, by decide⟩,
   c5_import_header "tests" "m" moduleC2 fs_empty (by decide) (by decide) (by decide) (by decide)⟩

theorem append_lines_files_ne {fs : FS} {p q : String} {lines : List String} (h : p ≠ q) :
    (fs.append_lines q lines).files p = fs.files p := by
  simp [FS.append_lines, h]

theorem append_if_absent_preserves {fs : FS} {fp : String} {lines : List String} {p : String}
    {c : List String} (h : fs.files p = some c) :
    (if (fs.files fp).isNone then fs.append_lines fp lines else fs).files p = some c := by
  split
  next hcond =>
    by_cases hp : p = fp
    · subst hp
      rw [h] at hcond
      simp at hcond
    · rw [append_lines_files_ne hp]
      exact h
  next => exact h

theorem help_file_preserves {base nm : String} {m : PyObj} {fs : FS} {p : String}
    {c : List String} (h : fs.files p = some c) :
    ((_help_file base nm m fs).1).files p = some c := by
  simp only [_help_file]
  exact append_if_absent_preserves h

theorem setup_preserves :
    ∀ (fuel : Nat) (base : String) (t : Tree) (fs : FS) (p : String) (c : List String),
      fs.files p = some c → ((_help_setup_files fuel base t fs).1).files p = some c := by
  intro fuel
  induction fuel with
  | zero => intro base t fs p c h; exact h
  | succ k ih =>
    intro base t fs p c h
    match t with
    | .leaf m => exact help_file_preserves h
    | .node [] => exact h
    | .node ((nm, .node cs) :: rest) =>
      exact ih base (.node rest) _ p c (ih base (.node cs) _ p c h)
    | .node ((nm, .leaf m) :: rest) =>
      exact ih base (.node rest) _ p c (help_file_preserves h)

theorem generate_appends :
    ∀ (load : String → Option PyObj) (mods : List (String × PyObj × String)) (fs : FS)
      (p : String) (c : List String), fs.files p = some c →
      ∃ s, ((generate_tests load mods fs).1).files p = some (c ++ s) := by
  intro load mods
  induction mods with
  | nil =>
    intro fs p c h
    exact ⟨[], by rw [List.append_nil]; exact h⟩
  | cons e rest ih =>
    intro fs p c h
    rcases hl : load e.2.2 with _ | tm
    · have step : generate_tests load (e :: rest) fs =
          (fs, some ("ModuleNotFoundError: " ++ e.2.2)) := by
        simp only [generate_tests, hl]
      rw [step]
      exact ⟨[], by rw [List.append_nil]; exact h⟩
    · have step : generate_tests load (e :: rest) fs =
          generate_tests load rest (fs.append_lines e.1
            (generate_tests_lines (get_testables tm none)
              (get_testables e.2.1 none))) := by
        simp only [generate_tests, hl]
      rw [step]
      by_cases hp : p = e.1
      · have h' : (fs.append_lines e.1 (generate_tests_lines (get_testables tm none)
            (get_testables e.2.1 none))).files p =
            some (c ++ generate_tests_lines (get_testables tm none)
              (get_testables e.2.1 none)) := by
          subst hp
          simp [FS.append_lines, h]
        obtain ⟨s, hs⟩ := ih _ p _ h'
        exact ⟨generate_tests_lines (get_testables tm none)
            (get_testables e.2.1 none) ++ s,
          by rw [hs, List.append_assoc]⟩
      · obtain ⟨s, hs⟩ := ih (fs.append_lines e.1 (generate_tests_lines
            (get_testables tm none) (get_testables e.2.1 none))) p c
          (by rw [append_lines_files_ne hp]; exact h)
        exact ⟨s, hs⟩

/-- Claim C8 (confirmed).  The materializer leaves every file that already
exists untouched (same content, not recreated or truncated, header not
rewritten), and the generation driver only ever appends: after a run, the
old content of any pre-existing file is an unchanged prefix of its new
content — whether the generation loop runs to completion or is aborted by
an import error.  (Directory creation aside, these are the system's only
filesystem writes.) -/
theorem c8_append_only :
    (∀ (fuel : Nat) (base : String) (t : Tree) (fs : FS) (p : String) (c : List String),
       fs.files p = some c → ((_help_setup_files fuel base t fs).1).files p = some c) ∧
    (∀ (load : String → Option PyObj) (mods : List (String × PyObj × String)) (fs : FS)
       (p : String) (c : List String), fs.files p = some c →
       ∃ s, ((generate_tests load mods fs).1).files p = some (c ++ s)) :=
  ⟨setup_preserves, generate_appends⟩

/-- Witness for C8 at a concrete filesystem, tree and module list. -/
theorem c8_append_only_witness :
    (fsC8.files "keep.py" = some ["x = 1"] ∧
     ((_help_setup_files 2 "tests" (.node [("m.s", .leaf (.pymodule "m.s" []))]) fsC8).1).files
         "keep.py" = some ["x = 1"]) ∧
    (fsC8.files "keep.py" = some ["x = 1"] ∧
     ∃ s, ((generate_tests (fun nm => some (.pymodule nm []))
         [("tests/test_s.py", .pymodule "m.s" [], "tests..test_s")] fsC8).1).files "keep.py" =
       some (["x = 1"] ++ s)) :=
  ⟨⟨rfl, c8_append_only.1 2 "tests" _ fsC8 "keep.py" ["x = 1"] rfl⟩,
   ⟨rfl, c8_append_only.2 _ _ fsC8 "keep.py" ["x = 1"] rfl⟩⟩


theorem foldl_fixed {α β : Type} {l : List α} {f : β → α → β} {b : β}
    (h : ∀ acc x, x ∈ l → f acc x = acc) : l.foldl f b = b := by
  induction l generalizing b with
  | nil => rfl
  | cons x t ih =>
    rw [List.foldl_cons, h b x (by simp)]
    exact ih (fun acc y hy => h acc y (by simp [hy]))

theorem foldl_invariant {α β : Type} {P : β → Prop} {l : List α} {f : β → α → β} {b : β}
    (hb : P b) (h : ∀ acc x, x ∈ l → P acc → P (f acc x)) : P (l.foldl f b) := by
  induction l generalizing b with
  | nil => exact hb
  | cons x t ih =>
    exact ih (h b x (by simp) hb) (fun acc y hy hacc => h acc y (by simp [hy]) hacc)

theorem all_empty_append {acc : List String} (h : ∀ s ∈ acc, s = "") :
    ∀ s ∈ acc ++ [""], s = "" := by
  intro s hs
  rcases List.mem_append.mp hs with h1 | h1
  · exact h s h1
  · simpa using h1

theorem find?_eq_of_unique {p : PyObj → Bool} {l : List PyObj} {a : PyObj}
    (ha : a ∈ l) (hpa : p a = true) (huniq : ∀ x ∈ l, p x = true → x = a) :
    l.find? p = some a := by
  induction l with
  | nil => cases ha
  | cons b t ih =>
    cases hb : p b with
    | true =>
      have hba : b = a := huniq b (by simp) hb
      subst hba
      simp [List.find?_cons, hb]
    | false =>
      have hat : a ∈ t := by
        rcases List.mem_cons.mp ha with rfl | h1
        · rw [hpa] at hb; cases hb
        · exact h1
      rw [List.find?_cons, hb]
      exact ih hat (fun x hx hpx => huniq x (by simp [hx]) hpx)

theorem exists_test_opt_class (c cm : String) (ms : List (String × PyObj)) (ctx : List PyObj) :
    exists_test_opt (.pyclass c cm ms) ctx =
      ctx.find? (fun item => item.name == "Test" ++ c) := by
  rw [exists_test_opt, exists_test_class]

theorem subfunction_not_subclass {m p : PyObj} (h : is_subfunction m p = true) :
    is_subclass m p = false := by
  cases m <;> cases p <;>
    simp_all [is_subfunction, is_subclass, PyObj.isclass, PyObj.ismodule,
      PyObj.isfunction, PyObj.ismethod]

theorem is_subclass_isclass {m p : PyObj} (h : is_subclass m p = true) :
    m.isclass = true := by
  cases m <;> cases p <;>
    simp_all [is_subclass, PyObj.isclass, PyObj.ismodule]

theorem well_nested_spec {mn : String} {mems : List (String × PyObj)}
    (h : well_nested (.pymodule mn mems) = true) :
    ∀ c ∈ get_testables (.pymodule mn mems) none,
    ∀ d ∈ get_testables c (some ["__init__"]),
      d.isclass = true → get_testables d (some ["__init__"]) = [] := by
  intro c hc d hd hdc
  rw [well_nested, List.all_eq_true] at h
  have h2 := h c hc
  rw [List.all_eq_true] at h2
  have h3 := h2 d hd
  rw [hdc] at h3
  simp only [Bool.not_true, Bool.false_or] at h3
  rcases hgt : get_testables d (some ["__init__"]) with _ | ⟨a, t⟩
  · rfl
  · rw [hgt] at h3
    simp at h3

theorem testable_module_of_module {z : PyObj} {tmn : String} {L : List (String × PyObj)}
    (h : (is_subfunction z (.pymodule tmn L) || is_subclass z (.pymodule tmn L)) = true) :
    z.module? = some tmn := by
  cases z <;>
    simp_all [is_subfunction, is_subclass, PyObj.isclass, PyObj.ismodule,
      PyObj.isfunction, PyObj.ismethod, PyObj.module?, PyObj.name]

theorem mem_reloaded_iff {tm mn : String} {mems : List (String × PyObj)} (htm : tm ≠ mn)
    {z : PyObj} :
    z ∈ get_testables (reloaded_test_module tm mn mems) none ↔
      z ∈ first_run_stubs tm (get_testables (.pymodule mn mems) none) := by
  constructor
  · intro h
    obtain ⟨k, h1, h2, h3⟩ := mem_get_testables.mp h
    have hmod : z.module? = some tm := testable_module_of_module h2
    rcases List.mem_append.mp h1 with hl | hr
    · exfalso
      have hz := (mem_bind_self.mp hl).1
      obtain ⟨k2, -, h4, -⟩ := mem_get_testables.mp hz
      have hmod2 : z.module? = some mn := testable_module_of_module h4
      rw [hmod] at hmod2
      exact htm (Option.some.inj hmod2)
    · exact (mem_bind_self.mp hr).1
  · intro h
    refine mem_get_testables.mpr ⟨z.name,
      List.mem_append.mpr (Or.inr (mem_bind_self.mpr ⟨h, rfl⟩)), ?_, rfl⟩
    obtain ⟨y, hy, hz⟩ := List.mem_flatMap.mp h
    cases y with
    | pyfunc f fm =>
      simp only [stub_artifact, List.mem_singleton] at hz
      subst hz
      simp [reloaded_test_module, is_subfunction, PyObj.isclass, PyObj.ismodule,
        PyObj.isfunction, PyObj.module?, PyObj.name]
    | pymethod f fm => simp [stub_artifact] at hz
    | pyclass c cm cms =>
      simp only [stub_artifact, List.mem_singleton] at hz
      subst hz
      simp [reloaded_test_module, is_subclass, is_subfunction, PyObj.isclass,
        PyObj.ismodule, PyObj.isfunction, PyObj.ismethod, PyObj.module?, PyObj.name]
    | pymodule n2 ms2 => simp [stub_artifact] at hz
    | pyother n2 m2 => simp [stub_artifact] at hz

theorem SM_all_funcs {tm : String} {L : List PyObj} :
    ∀ y ∈ L.filterMap (stub_method tm), ∃ f, y = PyObj.pyfunc f tm := by
  intro y hy
  obtain ⟨x, hx, hxy⟩ := List.mem_filterMap.mp hy
  cases x with
  | pyfunc f fm =>
    simp only [stub_method, Option.some.injEq] at hxy
    exact ⟨"test_" ++ f, hxy.symm⟩
  | pymethod f fm =>
    simp only [stub_method, Option.some.injEq] at hxy
    exact ⟨"test_" ++ f, hxy.symm⟩
  | pyclass a b d => simp [stub_method] at hxy
  | pymodule a b => simp [stub_method] at hxy
  | pyother a b => simp [stub_method] at hxy

theorem mem_testables_of_all_funcs {nmc tm : String} {SM : List PyObj} {x : PyObj}
    (hSM : ∀ y ∈ SM, ∃ f, y = PyObj.pyfunc f tm) :
    x ∈ get_testables (.pyclass nmc tm (bind_self SM)) none ↔ x ∈ SM := by
  rw [mem_get_testables]
  constructor
  · rintro ⟨k, h1, -, -⟩
    exact (mem_bind_self.mp h1).1
  · intro h
    refine ⟨x.name, mem_bind_self.mpr ⟨h, rfl⟩, ?_, rfl⟩
    obtain ⟨f, rfl⟩ := hSM x h
    simp [is_subfunction, PyObj.isclass, PyObj.isfunction, PyObj.module?]

theorem testables_of_func_list_nil_iff {nmc tm : String} {SM : List PyObj}
    (hSM : ∀ y ∈ SM, ∃ f, y = PyObj.pyfunc f tm) :
    get_testables (.pyclass nmc tm (bind_self SM)) none = [] ↔ SM = [] := by
  constructor
  · intro h
    rcases hSM2 : SM with _ | ⟨y, ys⟩
    · rfl
    · exfalso
      have hy : y ∈ get_testables (.pyclass nmc tm (bind_self SM)) none := by
        rw [mem_testables_of_all_funcs hSM, hSM2]
        simp
      rw [h] at hy
      cases hy
  · intro h
    subst h
    rfl

theorem format_class_suppressed {cls : PyObj} {ne : List PyObj}
    (hne : ne.isEmpty = false)
    (hfun : ∀ member ∈ get_testables cls (some ["__init__"]),
      is_subfunction member cls = true → exists_test_b member ne = true)
    (hcls : ∀ member ∈ get_testables cls (some ["__init__"]),
      is_subclass member cls = true → get_testables member (some ["__init__"]) = []) :
    format_class cls 1 (some ne) = [] := by
  obtain ⟨s, hs⟩ : ∃ s, cls.size = s + 1 := ⟨cls.size - 1, by have := size_pos cls; omega⟩
  show format_class_fuel cls.size cls 1 (some ne) = []
  rw [hs]
  simp only [format_class_fuel, hne, Bool.false_eq_true, if_false]
  apply foldl_fixed
  intro acc member hmem
  by_cases hc : is_subclass member cls = true
  · have h0 : get_testables member (some ["__init__"]) = [] := hcls member hmem hc
    have hf : is_subfunction member cls = false := by
      cases hsf : is_subfunction member cls
      · rfl
      · rw [subfunction_not_subclass hsf] at hc; cases hc
    have hfc : format_class_fuel s member 1 (some [member]) = [] := by
      cases s with
      | zero => rfl
      | succ k => simp [format_class_fuel, h0]
    simp [hc, hf, h0, hfc, indent]
  · by_cases hsf : is_subfunction member cls = true
    · simp [hc, hsf, hfun member hmem hsf]
    · simp [hc, hsf]

/-- Claim C1, amended.  For a root module in which no class nested inside
another class has testables of its own (so the first run's emitted text is
well-formed and importable), a second run appends no stub text: every line
it writes is the blank line from `write(body + "\n")` on already-covered
classes.  The hypotheses assert duplicate-free `__name__`s among the member
values (ruling out same-module aliases and shadowed definitions, for which
the reload would not bind one artifact per source entity) and a test module
whose dotted name differs from the source module's.  The second run's
context is the reloaded test file: the header's imports plus the artifacts
declared by the first run's stubs. -/
theorem c1_idempotence_amended (mn tm : String) (mems : List (String × PyObj))
    (htm : tm ≠ mn)
    (hnd : (mems.map (fun kv => kv.2.name)).Nodup)
    (hwn : well_nested (.pymodule mn mems) = true) :
    ∀ l ∈ generate_tests_lines (get_testables (reloaded_test_module tm mn mems) none)
        (get_testables (.pymodule mn mems) none), l = "" := by
  simp only [generate_tests_lines]
  apply foldl_invariant (P := fun acc => ∀ l ∈ acc, l = "")
  · intro l hl
    cases hl
  · intro acc obj hobj hP
    cases obj with
    | pyfunc f fm =>
      have hstub : exists_test_b (.pyfunc f fm)
          (get_testables (reloaded_test_module tm mn mems) none) = true := by
        rw [exists_test_b_func]
        refine ⟨.pyfunc ("test_" ++ f) tm, ?_, rfl⟩
        rw [mem_reloaded_iff htm]
        exact List.mem_flatMap.mpr ⟨.pyfunc f fm, hobj, by simp [stub_artifact]⟩
      simpa [PyObj.isfunction, hstub] using hP
    | pymethod f fm => simpa [PyObj.isfunction, PyObj.isclass] using hP
    | pymodule n2 ms2 => simpa [PyObj.isfunction, PyObj.isclass] using hP
    | pyother n2 m2 => simpa [PyObj.isfunction, PyObj.isclass] using hP
    | pyclass c cm cms =>
      have hSMfun : ∀ y ∈ (get_testables (.pyclass c cm cms) (some ["__init__"])).filterMap
          (stub_method tm), ∃ f, y = PyObj.pyfunc f tm := SM_all_funcs
      have hstubmem : (PyObj.pyclass ("Test" ++ c) tm
          (bind_self ((get_testables (.pyclass c cm cms) (some ["__init__"])).filterMap
            (stub_method tm)))) ∈ get_testables (reloaded_test_module tm mn mems) none := by
        rw [mem_reloaded_iff htm]
        exact List.mem_flatMap.mpr ⟨.pyclass c cm cms, hobj, by simp [stub_artifact]⟩
      have hfind : exists_test_opt (.pyclass c cm cms)
          (get_testables (reloaded_test_module tm mn mems) none) =
          some (.pyclass ("Test" ++ c) tm
            (bind_self ((get_testables (.pyclass c cm cms) (some ["__init__"])).filterMap
              (stub_method tm)))) := by
        rw [exists_test_opt_class]
        apply find?_eq_of_unique hstubmem
        · simp [PyObj.name]
        · intro x hx hpx
          rw [mem_reloaded_iff htm] at hx
          obtain ⟨y, hy, hxy⟩ := List.mem_flatMap.mp hx
          have hxname : x.name = "Test" ++ c := by simpa using hpx
          cases y with
          | pyfunc g gm =>
            simp only [stub_artifact, List.mem_singleton] at hxy
            subst hxy
            exact absurd hxname (test_name_ne_class_name g c)
          | pymethod g gm => simp [stub_artifact] at hxy
          | pymodule n2 m2 => simp [stub_artifact] at hxy
          | pyother n2 m2 => simp [stub_artifact] at hxy
          | pyclass cp cmp cmsp =>
            simp only [stub_artifact, List.mem_singleton] at hxy
            subst hxy
            have hcc : cp = c := class_name_inj hxname
            have hnames : ((get_testables (.pymodule mn mems) none).map PyObj.name).Nodup :=
              get_testables_names_nodup hnd
            have heq : PyObj.pyclass cp cmp cmsp = PyObj.pyclass c cm cms :=
              List.inj_on_of_nodup_map hnames hy hobj (by simpa [PyObj.name] using hcc)
            injection heq with e1 e2 e3
            subst e1
            subst e2
            subst e3
            rfl
      by_cases hSMnil : (get_testables (.pyclass c cm cms) (some ["__init__"])).filterMap
          (stub_method tm) = []
      · have hT0 : get_testables (.pyclass ("Test" ++ c) tm
            (bind_self ((get_testables (.pyclass c cm cms) (some ["__init__"])).filterMap
              (stub_method tm)))) none = [] := by
          rw [hSMnil]
          rfl
        have hfc : format_class (.pyclass c cm cms) 1 (some [.pyclass c cm cms]) = [] := by
          apply format_class_suppressed
          · rfl
          · intro member hm hsf
            exfalso
            have hz : ∃ z, stub_method tm member = some z := by
              cases member with
              | pyfunc g gm => exact ⟨_, rfl⟩
              | pymethod g gm => exact ⟨_, rfl⟩
              | pyclass a b d =>
                simp [is_subfunction, PyObj.isfunction, PyObj.ismethod, PyObj.isclass] at hsf
              | pymodule a b =>
                simp [is_subfunction, PyObj.isfunction, PyObj.ismethod, PyObj.isclass,
                  PyObj.ismodule] at hsf
              | pyother a b =>
                simp [is_subfunction, PyObj.isfunction, PyObj.ismethod, PyObj.isclass] at hsf
            obtain ⟨z, hzz⟩ := hz
            have hmem2 : z ∈ (get_testables (.pyclass c cm cms) (some ["__init__"])).filterMap
                (stub_method tm) := List.mem_filterMap.mpr ⟨member, hm, hzz⟩
            rw [hSMnil] at hmem2
            cases hmem2
          · intro member hm hdc
            exact well_nested_spec hwn _ hobj member hm (is_subclass_isclass hdc)
        simp only [PyObj.isfunction, PyObj.isclass, Bool.false_eq_true, if_false, if_true,
          hfind, hT0, List.isEmpty_nil, hfc, List.append_nil]
        exact all_empty_append hP
      · have hTne : (get_testables (.pyclass ("Test" ++ c) tm
            (bind_self ((get_testables (.pyclass c cm cms) (some ["__init__"])).filterMap
              (stub_method tm)))) none).isEmpty = false := by
          rcases hgt : get_testables (.pyclass ("Test" ++ c) tm
              (bind_self ((get_testables (.pyclass c cm cms) (some ["__init__"])).filterMap
                (stub_method tm)))) none with _ | ⟨a, t⟩
          · exact absurd ((testables_of_func_list_nil_iff hSMfun).mp hgt) hSMnil
          · rfl
        have hfc : format_class (.pyclass c cm cms) 1
            (some (get_testables (.pyclass ("Test" ++ c) tm
              (bind_self ((get_testables (.pyclass c cm cms) (some ["__init__"])).filterMap
                (stub_method tm)))) none)) = [] := by
          apply format_class_suppressed hTne
          · intro member hm hsf
            cases member with
            | pyfunc g gm =>
              rw [exists_test_b_func]
              refine ⟨.pyfunc ("test_" ++ g) tm, ?_, rfl⟩
              rw [mem_testables_of_all_funcs hSMfun]
              exact List.mem_filterMap.mpr ⟨.pyfunc g gm, hm, rfl⟩
            | pymethod g gm =>
              rw [exists_test_b_method]
              refine ⟨.pyfunc ("test_" ++ g) tm, ?_, rfl⟩
              rw [mem_testables_of_all_funcs hSMfun]
              exact List.mem_filterMap.mpr ⟨.pymethod g gm, hm, rfl⟩
            | pyclass a b d =>
              simp [is_subfunction, PyObj.isfunction, PyObj.ismethod, PyObj.isclass] at hsf
            | pymodule a b =>
              simp [is_subfunction, PyObj.isfunction, PyObj.ismethod, PyObj.isclass,
                PyObj.ismodule] at hsf
            | pyother a b =>
              simp [is_subfunction, PyObj.isfunction, PyObj.ismethod, PyObj.isclass] at hsf
          · intro member hm hdc
            exact well_nested_spec hwn _ hobj member hm (is_subclass_isclass hdc)
        simp only [PyObj.isfunction, PyObj.isclass, Bool.false_eq_true, if_false, if_true,
          hfind, hTne, hfc, List.append_nil]
        exact all_empty_append hP

/-- Witness for C1 at a concrete well-nested module with a function, a class
(with a method and an empty nested class) and a module-level bound method,
each bound at its own name. -/
theorem c1_idempotence_amended_witness :
    (("tm" : String) ≠ "m" ∧
     ((([("a", .pyfunc "a" "m"),
         ("C", .pyclass "C" "m" [("x", .pyfunc "x" "m"), ("E", .pyclass "E" "m" [])]),
         ("bm", .pymethod "bm" "m")] : List (String × PyObj)).map
        (fun kv => kv.2.name)).Nodup) ∧
     well_nested (.pymodule "m" [("a", .pyfunc "a" "m"),
       ("C", .pyclass "C" "m" [("x", .pyfunc "x" "m"), ("E", .pyclass "E" "m" [])]),
       ("bm", .pymethod "bm" "m")]) = true) ∧
    (∀ l ∈ generate_tests_lines
        (get_testables (reloaded_test_module "tm" "m"
          [("a", .pyfunc "a" "m"),
           ("C", .pyclass "C" "m" [("x", .pyfunc "x" "m"), ("E", .pyclass "E" "m" [])]),
           ("bm", .pymethod "bm" "m")]) none)
        (get_testables (.pymodule "m" [("a", .pyfunc "a" "m"),
          ("C", .pyclass "C" "m" [("x", .pyfunc "x" "m"), ("E", .pyclass "E" "m" [])]),
          ("bm", .pymethod "bm" "m")]) none), l = "") :=
  ⟨⟨by decide, by decide, by decide⟩,
   c1_idempotence_amended "m" "tm"
     [("a", .pyfunc "a" "m"),
      ("C", .pyclass "C" "m" [("x", .pyfunc "x" "m"), ("E", .pyclass "E" "m" [])]),
      ("bm", .pymethod "bm" "m")] (by decide) (by decide) (by decide)⟩


end Testgen
